import Mathlib

/-!
# Verification of the football-api background scheduler and cache

Shallow embedding of `app/core/cache.py`, `app/core/scheduler.py`, the
batch scraper `app/scrapers/football_data.py` (`scrape_all_fd_leagues`),
and the cache readers in `app/main.py` (`health`) and
`app/routers/scores.py` (`_all_upcoming`, `_all_recent`).

Python values stored in the cache are modelled by the inductive `Value`
(lists, string-keyed dicts, numbers, strings).  Wall-clock instants
(`time.time()`) are modelled as rationals.  Adapter calls are modelled by
their observable outcome: either a returned value or a raised exception.
-/

namespace FootballAPI

/-- Python values that flow through the cache: lists, dicts keyed by
strings, numbers and strings.  Enough to represent the snapshots the
scrapers produce (`list[dict]` of matches, `{league_slug: {...}}`). -/
inductive Value where
  | vnat  : Nat → Value
  | vstr  : String → Value
  | vlist : List Value → Value
  | vdict : List (String × Value) → Value

/-- Python truthiness (`if data:`) for the values above: empty lists,
empty dicts, `0` and `""` are falsy. -/
def truthy : Value → Bool
  | .vnat n   => n != 0
  | .vstr s   => !s.isEmpty
  | .vlist xs => !xs.isEmpty
  | .vdict xs => !xs.isEmpty

/-- Wall-clock instants and durations (`time.time()` values). -/
abbrev Time := ℚ

/-- One entry of the store: `{"data": data, "ts": time.time()}`
(`app/core/cache.py`, line 23). -/
structure Entry where
  data : Value
  ts   : Time

/-- The module-level `_store : dict[str, dict]` of `app/core/cache.py`,
as an association list with unique keys (first binding wins on lookup,
as for a Python dict). -/
abbrev Store := List (String × Entry)

/-- Python dict assignment `_store[key] = v`: replace the binding in
place when the key is present, otherwise append it. -/
def storeSet (s : Store) (k : String) (e : Entry) : Store :=
  match s with
  | [] => [(k, e)]
  | (k', e') :: rest =>
      if k' = k then (k, e) :: rest else (k', e') :: storeSet rest k e

/-- `set_cache(key, data)`: atomically store `{"data": data, "ts": now}`
(`app/core/cache.py`, lines 20–23).  The lock makes the write atomic; in
this sequential model atomicity is implicit. -/
def set_cache (s : Store) (key : String) (data : Value) (now : Time) : Store :=
  storeSet s key ⟨data, now⟩

/-- `get_cache(key)`: the entry's `data`, or `None` if never set
(`app/core/cache.py`, lines 26–30). -/
def get_cache (s : Store) (key : String) : Option Value :=
  match s.find? (fun p => p.1 = key) with
  | some p => some p.2.data
  | none   => none

/-- Python `round(x, 1)` applied to a duration in seconds
(`app/core/cache.py`, line 37).  Mathlib's `round` rounds half away
from/up rather than Python's half-to-even, which differs only on exact
ties and not in any property proved here. -/
def roundTenths (x : ℚ) : ℚ := (round (x * 10) : ℤ) / 10

/-- `get_cache_age(key)`: `round(time.time() - e["ts"], 1)` or `None`
(`app/core/cache.py`, lines 33–37). -/
def get_cache_age (s : Store) (key : String) (now : Time) : Option ℚ :=
  match s.find? (fun p => p.1 = key) with
  | some p => some (roundTenths (now - p.2.ts))
  | none   => none

/-- `cache_summary()`: metadata only, one `age_s` per present key
(`app/core/cache.py`, lines 40–43). -/
def cache_summary (s : Store) (now : Time) : List (String × ℚ) :=
  s.map (fun p => (p.1, roundTenths (now - p.2.ts)))

/-! ## Scheduler constants and time-of-day rule (`app/core/scheduler.py`) -/

/-- `ACTIVE_INTERVAL_S = 3 * 60` — live football hours (line 39). -/
def ACTIVE_INTERVAL_S : ℚ := 3 * 60

/-- `OFFPEAK_INTERVAL_S = 7 * 60` — quiet hours (line 40). -/
def OFFPEAK_INTERVAL_S : ℚ := 7 * 60

/-- `FD_INTERVAL_S = 30 * 60` — football-data.org cadence (line 41). -/
def FD_INTERVAL_S : ℚ := 30 * 60

/-- `INDIAN_INTERVAL_S = 60 * 60` — Indian leagues cadence (line 42). -/
def INDIAN_INTERVAL_S : ℚ := 60 * 60

/-- `SS_LEAGUES_INTERVAL_S = 30 * 60` — SofaScore leagues cadence (line 43). -/
def SS_LEAGUES_INTERVAL_S : ℚ := 30 * 60

/-- `_is_active()` : `hour >= 17 or hour < 6` on the IST clock hour
(`app/core/scheduler.py`, lines 54–56).  The IST hour is passed in
explicitly. -/
def _is_active (hour : Nat) : Bool :=
  decide (hour ≥ 17) || decide (hour < 6)

/-- `_live_interval()` (`app/core/scheduler.py`, lines 59–60). -/
def _live_interval (hour : Nat) : ℚ :=
  if _is_active hour then ACTIVE_INTERVAL_S else OFFPEAK_INTERVAL_S

/-! ## Refresh jobs (`app/core/scheduler.py`, lines 65–125)

An adapter call is modelled by its observable outcome: either it returns
a value or it raises. -/

/-- Outcome of one `await scrape_…()` adapter call. -/
inductive Fetch where
  | ok  : Value → Fetch
  | exn : Fetch

/-- What one job invocation did: the store it leaves behind, the job's
updated `last_…` timestamp, whether the adapter was actually invoked,
and whether an exception escaped the job (`raised`). -/
structure JobOut where
  store         : Store
  last          : Time
  adapterCalled : Bool
  raised        : Bool

/-- `_job_live()` (`app/core/scheduler.py`, lines 65–74): no interval
gate; fetch, and on success always `set_cache("live_scores", matches)`
(even an empty list is valid); any exception is caught and logged.  The
`last` field is unused (the live job keeps no `last_…` state); it is
returned unchanged. -/
def _job_live (fetch : Fetch) (now : Time) (s : Store) : JobOut :=
  match fetch with
  | .ok ms => ⟨set_cache s "live_scores" ms now, 0, true, false⟩
  | .exn   => ⟨s, 0, true, false⟩

/-- Common shape of the three gated jobs (`_job_fd_leagues`,
`_job_indian_leagues`, `_job_ss_leagues`, lines 77–125): return
immediately when `time.time() - last < interval`; otherwise fetch; on a
truthy result `set_cache(key, data)` and stamp `last = time.time()`;
on a falsy result or an exception leave both untouched. -/
def gatedJob (key : String) (interval : ℚ) (now last : Time)
    (fetch : Fetch) (s : Store) : JobOut :=
  if now - last < interval then ⟨s, last, false, false⟩
  else
    match fetch with
    | .exn => ⟨s, last, true, false⟩
    | .ok data =>
        if truthy data then ⟨set_cache s key data now, now, true, false⟩
        else ⟨s, last, true, false⟩

/-- `_job_fd_leagues()` (`app/core/scheduler.py`, lines 77–91). -/
def _job_fd_leagues (now last : Time) (fetch : Fetch) (s : Store) : JobOut :=
  gatedJob "fd_leagues" FD_INTERVAL_S now last fetch s

/-- `_job_indian_leagues()` (`app/core/scheduler.py`, lines 94–108). -/
def _job_indian_leagues (now last : Time) (fetch : Fetch) (s : Store) : JobOut :=
  gatedJob "indian_leagues" INDIAN_INTERVAL_S now last fetch s

/-- `_job_ss_leagues()` (`app/core/scheduler.py`, lines 111–125). -/
def _job_ss_leagues (now last : Time) (fetch : Fetch) (s : Store) : JobOut :=
  gatedJob "sofascore_leagues" SS_LEAGUES_INTERVAL_S now last fetch s

/-! ## Cycle coordinator (`_run_cycle`, `app/core/scheduler.py` lines 130–142)

The coordinator is modelled generically over the job state `σ`: a job
is a function from `σ` to a `JobStep`, which either completes normally
with a new state or raises out of the job, leaving the state it reached
before raising. -/

/-- Outcome of awaiting one job from the cycle body. -/
inductive JobStep (σ : Type) where
  | ok  : σ → JobStep σ
  | exn : σ → JobStep σ

/-- How a `_run_cycle()` call ended: skipped because the lock was held,
completed normally, or terminated by an exception escaping a job. -/
inductive CycleResult where
  | skipped
  | completed
  | raised
deriving DecidableEq

/-- Shared state seen by `_run_cycle`: the `_scrape_lock` and the job
state. -/
structure CycleState (σ : Type) where
  lockHeld : Bool
  st       : σ

/-- Result of a `_run_cycle()` call: the state left behind, how the call
ended, and how many jobs were actually awaited. -/
structure CycleOut (σ : Type) where
  state   : CycleState σ
  result  : CycleResult
  jobsRun : Nat

/-- Await the jobs in order.  An exception escaping a job stops the
sequence (the remaining jobs are not awaited) and propagates.  Returns
the final state, whether an exception escaped, and how many jobs were
awaited. -/
def runJobs {σ : Type} : List (σ → JobStep σ) → σ → σ × Bool × Nat
  | [],        s => (s, false, 0)
  | j :: rest, s =>
      match j s with
      | .ok s'  =>
          let r := runJobs rest s'
          (r.1, r.2.1, r.2.2 + 1)
      | .exn s' => (s', true, 1)

/-- `_run_cycle()`: if `_scrape_lock.locked()`, log and return (skip);
otherwise run every job in order under the lock.  `async with` releases
the lock even when a job raises, and the exception propagates to the
caller (there is no per-job `try` in `_run_cycle`). -/
def _run_cycle {σ : Type} (jobs : List (σ → JobStep σ))
    (cs : CycleState σ) : CycleOut σ :=
  if cs.lockHeld then ⟨cs, .skipped, 0⟩
  else
    ⟨⟨false, (runJobs jobs cs.st).1⟩,
      if (runJobs jobs cs.st).2.1 then .raised else .completed,
      (runJobs jobs cs.st).2.2⟩

/-- One iteration of the `while True` loop in `run_scheduler()`
(lines 165–172): `await _run_cycle()` inside `try/except Exception`, so
the loop absorbs whatever `_run_cycle` raises and continues. -/
def schedulerLoopStep {σ : Type} (jobs : List (σ → JobStep σ))
    (cs : CycleState σ) : CycleState σ :=
  (_run_cycle jobs cs).state

/-! ## Scheduler driver (`run_scheduler`, lines 147–163) -/

/-- Driver state: the module-level `_running` flag, plus an
instrumentation counter of how many times the warm-up-and-loop body has
been entered. -/
structure DriverState where
  running    : Bool
  loopStarts : Nat
deriving DecidableEq

/-- The start of `run_scheduler()` up to entering the loop: if
`_running`, log a warning and return (`False` = no loop started);
otherwise set `_running = True` and proceed to the warm-up cycle and
the infinite loop (`True` = this call runs the loop).  Nothing in the
module ever resets `_running`. -/
def run_scheduler_start (d : DriverState) : DriverState × Bool :=
  if d.running then (d, false)
  else (⟨true, d.loopStarts + 1⟩, true)

/-- `n` successive calls to `run_scheduler()` from the initial state. -/
def startN : Nat → DriverState
  | 0     => ⟨false, 0⟩
  | n + 1 => (run_scheduler_start (startN n)).1

/-! ## Batch scraper (`scrape_all_fd_leagues`,
`app/scrapers/football_data.py` lines 350–377) -/

/-- Observable outcome of one `await` on a per-league sub-scraper
inside the `for slug in fd_slugs` loop.  The sub-scrapers catch
network/HTTP failures internally (`_get` returns `None`,
`football_data.py` lines 120–136) and then return an *empty* component
(`[]`), so a graceful failure surfaces as `ok` of an empty value; only
an unexpected error during parsing raises out of the call. -/
inductive SubFetch where
  | exn : SubFetch
  | ok  : Value → SubFetch

/-- Outcome of `scrape_league_matches`, which on every non-raising path
returns a dict with exactly the keys `upcoming` and `recent` (both `[]`
when `_get` failed gracefully): the pair of those components, or a
raise. -/
inductive MatchesFetch where
  | exn : MatchesFetch
  | ok  (upcoming recent : Value) : MatchesFetch

/-- The recorded outcomes of the three sub-scraper calls for one league
slug: `scrape_league_matches`, `scrape_standings`, `scrape_scorers`.
If an earlier call raises, the later ones never execute and their
recorded outcome is irrelevant: the league's entry is kept iff no step
raises. -/
structure LeagueFetch where
  matchesStep   : MatchesFetch
  standingsStep : SubFetch
  scorersStep   : SubFetch

/-- The try-block body for one slug: the assembled `result[slug]`
value, or `none` when one of the three awaits raised (the `except`
clause logs the error and the loop continues with the next slug). -/
def leagueEntry (lf : LeagueFetch) : Option Value :=
  match lf.matchesStep, lf.standingsStep, lf.scorersStep with
  | .ok u r, .ok st, .ok sc =>
      some (.vdict
        [("upcoming", u), ("recent", r), ("standings", st), ("scorers", sc)])
  | _, _, _ => none

/-- Did one of this league's sub-fetches raise (dropping the league)? -/
def LeagueFetch.raises (lf : LeagueFetch) : Bool :=
  match lf.matchesStep, lf.standingsStep, lf.scorersStep with
  | .ok _ _, .ok _, .ok _ => false
  | _, _, _ => true

/-- The `result` dict built by the `for slug in fd_slugs` loop: one
entry per slug whose three sub-fetches all completed, in slug order; a
slug where a step raised is logged and skipped, the loop continues with
the rest. -/
def fdResultEntries (fdSlugs : List String) (f : String → LeagueFetch) :
    List (String × Value) :=
  fdSlugs.filterMap fun slug =>
    (leagueEntry (f slug)).map (fun v => (slug, v))

/-- `scrape_all_fd_leagues()`: build `{slug: {upcoming, recent,
standings, scorers}}` over the configured slugs. -/
def scrape_all_fd_leagues (fdSlugs : List String)
    (f : String → LeagueFetch) : Value :=
  .vdict (fdResultEntries fdSlugs f)

/-! ## Cache readers: `/health` (`app/main.py` lines 111–149) and the
score aggregators (`app/routers/scores.py` lines 44–63) -/

/-- `key in summary` for the dict returned by `cache_summary()`. -/
def summaryHasKey (summary : List (String × ℚ)) (k : String) : Bool :=
  summary.any (fun p => p.1 == k)

/-- `get_cache(key) or {}` followed by use as a dict.  The scheduler
only ever stores dicts under the league keys; a non-dict value reads as
the empty dict here. -/
def orEmptyDict (v : Option Value) : List (String × Value) :=
  match v with
  | some (.vdict xs) => xs
  | _                => []

/-- `health()["indian_ready"]`: `"tsdb_leagues" in summary`
(`app/main.py` line 148). -/
def health_indian_ready (s : Store) (now : Time) : Bool :=
  summaryHasKey (cache_summary s now) "tsdb_leagues"

/-- `health()["sources"]["thesportsdb"]["ready"]`: `"tsdb_leagues" in
summary` (`app/main.py` line 140). -/
def health_tsdb_ready (s : Store) (now : Time) : Bool :=
  summaryHasKey (cache_summary s now) "tsdb_leagues"

/-- `health()`'s `tsdb_data = get_cache("tsdb_leagues") or {}`
(`app/main.py` line 119), whose keys populate
`sources.thesportsdb.leagues_cached`. -/
def health_tsdb_data (s : Store) : List (String × Value) :=
  orEmptyDict (get_cache s "tsdb_leagues")

/-- Python dict lookup on a `Value` dict body. -/
def dictLookup (xs : List (String × Value)) (k : String) : Option Value :=
  (xs.find? (fun p => p.1 == k)).map (fun p => p.2)

/-- Python `{**fd, **tsdb}`: the keys of `fd` in order (values
overridden by `tsdb` where present), then the keys only in `tsdb`. -/
def dictMerge (a b : List (String × Value)) : List (String × Value) :=
  a.map (fun p => (p.1, (dictLookup b p.1).getD p.2)) ++
    b.filter (fun p => !(a.any (fun q => q.1 == p.1)))

/-- `league_data.get("upcoming", [])` (and likewise `"recent"`) used as
a list to `extend` with. -/
def getMatchList (field : String) (v : Value) : List Value :=
  match v with
  | .vdict xs =>
      match dictLookup xs field with
      | some (.vlist ms) => ms
      | _                => []
  | _ => []

/-- `m.get("kickoff_iso", "")` used as the sort key. -/
def kickoffIso (m : Value) : String :=
  match m with
  | .vdict xs =>
      match dictLookup xs "kickoff_iso" with
      | some (.vstr s) => s
      | _              => ""
  | _ => ""

/-- Stable insertion of `x` after every element whose key is `≤ key x`
(insertion step of a stable ascending sort, Python `list.sort(key=…)`). -/
def insertAsc (key : Value → String) (x : Value) : List Value → List Value
  | []      => [x]
  | y :: ys =>
      if key x < key y then x :: y :: ys else y :: insertAsc key x ys

/-- Stable ascending sort by `key` (models `out.sort(key=…)`). -/
def sortByKey (key : Value → String) (l : List Value) : List Value :=
  l.foldl (fun acc x => insertAsc key x acc) []

/-- Stable insertion for a descending sort (`reverse=True`). -/
def insertDesc (key : Value → String) (x : Value) : List Value → List Value
  | []      => [x]
  | y :: ys =>
      if key y < key x then x :: y :: ys else y :: insertDesc key x ys

/-- Stable descending sort by `key` (models
`out.sort(key=…, reverse=True)`). -/
def sortByKeyDesc (key : Value → String) (l : List Value) : List Value :=
  l.foldl (fun acc x => insertDesc key x acc) []

/-- `_all_upcoming()` (`app/routers/scores.py` lines 44–53): merge the
`fd_leagues` and `tsdb_leagues` dicts, concatenate every league's
`upcoming` list, drop matches already kicked off, sort by kickoff time.
`_is_still_upcoming` parses wall-clock datetimes, outside this model;
it is passed in as the predicate `stillUpcoming`. -/
def _all_upcoming (stillUpcoming : Value → Bool) (s : Store) : List Value :=
  let fd   := orEmptyDict (get_cache s "fd_leagues")
  let tsdb := orEmptyDict (get_cache s "tsdb_leagues")
  let out  := (dictMerge fd tsdb).flatMap (fun p => getMatchList "upcoming" p.2)
  sortByKey kickoffIso (out.filter stillUpcoming)

/-- `_all_recent()` (`app/routers/scores.py` lines 56–63): merge the two
league dicts, concatenate every league's `recent` list, sort newest
first. -/
def _all_recent (s : Store) : List Value :=
  let fd   := orEmptyDict (get_cache s "fd_leagues")
  let tsdb := orEmptyDict (get_cache s "tsdb_leagues")
  let out  := (dictMerge fd tsdb).flatMap (fun p => getMatchList "recent" p.2)
  sortByKeyDesc kickoffIso out

/-- `_all_upcoming` with the TheSportsDB branch forced to the empty
dict: what the aggregator yields when `tsdb_leagues` contributes
nothing. -/
def _all_upcoming_fd_only (stillUpcoming : Value → Bool) (s : Store) :
    List Value :=
  let fd  := orEmptyDict (get_cache s "fd_leagues")
  let out := (dictMerge fd []).flatMap (fun p => getMatchList "upcoming" p.2)
  sortByKey kickoffIso (out.filter stillUpcoming)

/-- `_all_recent` with the TheSportsDB branch forced to the empty dict. -/
def _all_recent_fd_only (s : Store) : List Value :=
  let fd  := orEmptyDict (get_cache s "fd_leagues")
  let out := (dictMerge fd []).flatMap (fun p => getMatchList "recent" p.2)
  sortByKeyDesc kickoffIso out

/-! ## Stores reachable through scheduler writes alone -/

/-- The cache stores reachable from the empty store by running the four
scheduler jobs (`app/core/scheduler.py` lines 65–125) with arbitrary
clock readings, `last_…` stamps and adapter outcomes.  These are the
only `set_cache` callers in the repository. -/
inductive SchedulerReachable : Store → Prop where
  | init : SchedulerReachable []
  | live (f : Fetch) (now : Time) {s : Store} :
      SchedulerReachable s → SchedulerReachable (_job_live f now s).store
  | fd (now last : Time) (f : Fetch) {s : Store} :
      SchedulerReachable s →
      SchedulerReachable (_job_fd_leagues now last f s).store
  | indian (now last : Time) (f : Fetch) {s : Store} :
      SchedulerReachable s →
      SchedulerReachable (_job_indian_leagues now last f s).store
  | ss (now last : Time) (f : Fetch) {s : Store} :
      SchedulerReachable s →
      SchedulerReachable (_job_ss_leagues now last f s).store

/-! ## Basic store lemmas -/

theorem find?_storeSet_self (s : Store) (k : String) (e : Entry) :
    (storeSet s k e).find? (fun p => p.1 = k) = some (k, e) := by
  induction s with
  | nil => simp [storeSet]
  | cons p rest ih =>
      obtain ⟨k', e'⟩ := p
      by_cases h : k' = k
      · subst h
        simp [storeSet]
      · simp [storeSet, h, List.find?, ih]

theorem find?_storeSet_ne (s : Store) (k k' : String) (e : Entry)
    (h : k' ≠ k) :
    (storeSet s k' e).find? (fun p => p.1 = k) =
      s.find? (fun p => p.1 = k) := by
  induction s with
  | nil => simp [storeSet, h]
  | cons p rest ih =>
      obtain ⟨k₀, e₀⟩ := p
      by_cases h0 : k₀ = k'
      · subst h0
        simp [storeSet, List.find?, h]
      · by_cases hk : k₀ = k
        · subst hk
          simp [storeSet, h0, List.find?]
        · simp [storeSet, h0, hk, List.find?, ih]

theorem get_cache_set_self (s : Store) (k : String) (v : Value) (t : Time) :
    get_cache (set_cache s k v t) k = some v := by
  simp [get_cache, set_cache, find?_storeSet_self]

theorem get_cache_set_ne (s : Store) (k k' : String) (v : Value) (t : Time)
    (h : k' ≠ k) :
    get_cache (set_cache s k' v t) k = get_cache s k := by
  simp [get_cache, set_cache, find?_storeSet_ne _ _ _ _ h]

theorem get_cache_age_set_self (s : Store) (k : String) (v : Value)
    (t t' : Time) :
    get_cache_age (set_cache s k v t) k t' = some (roundTenths (t' - t)) := by
  simp [get_cache_age, set_cache, find?_storeSet_self]

theorem roundTenths_nonneg (x : ℚ) (hx : 0 ≤ x) : 0 ≤ roundTenths x := by
  unfold roundTenths
  have h10 : (0 : ℚ) ≤ x * 10 := by positivity
  have : (0 : ℤ) ≤ round (x * 10) := by
    rw [round_eq]
    exact Int.floor_nonneg.mpr (by linarith)
  positivity

/-- A batch of `set_cache` writes, applied in order. -/
def applyWrites (ws : List (String × Value × Time)) (s : Store) : Store :=
  ws.foldl (fun acc w => set_cache acc w.1 w.2.1 w.2.2) s

theorem get_cache_applyWrites_ne (ws : List (String × Value × Time))
    (s : Store) (k : String) (hws : ∀ w ∈ ws, w.1 ≠ k) :
    get_cache (applyWrites ws s) k = get_cache s k := by
  induction ws generalizing s with
  | nil => rfl
  | cons w rest ih =>
      have hw : w.1 ≠ k := hws w (by simp)
      have hrest : ∀ w' ∈ rest, w'.1 ≠ k := fun w' hw' => hws w' (by simp [hw'])
      simp only [applyWrites, List.foldl_cons]
      rw [show (List.foldl (fun acc w => set_cache acc w.1 w.2.1 w.2.2) _ rest)
            = applyWrites rest (set_cache s w.1 w.2.1 w.2.2) from rfl,
        ih _ hrest, get_cache_set_ne _ _ _ _ _ hw]

/-- C9.  Cache read/write round-trip: after `set_cache(k, v)` and any
further writes to other keys, `get_cache(k)` returns exactly `v`; a key
never written (empty store, or a store built only from writes to other
keys) reads as `None`, and its age is `None`; after a write at time `t`,
the age read at any `t' ≥ t` is a non-negative duration. -/
theorem cache_roundtrip (s : Store) (k : String) (v : Value) (t t' : Time)
    (ws : List (String × Value × Time)) (hws : ∀ w ∈ ws, w.1 ≠ k)
    (ht : t ≤ t') :
    get_cache (applyWrites ws (set_cache s k v t)) k = some v ∧
    (∀ key : String, get_cache ([] : Store) key = none) ∧
    (∀ key : String, get_cache_age ([] : Store) key t' = none) ∧
    get_cache (applyWrites ws ([] : Store)) k = none ∧
    get_cache_age (set_cache s k v t) k t' = some (roundTenths (t' - t)) ∧
    0 ≤ roundTenths (t' - t) := by
  refine ⟨?_, ?_, ?_, ?_, ?_, ?_⟩
  · rw [get_cache_applyWrites_ne _ _ _ hws, get_cache_set_self]
  · intro key; rfl
  · intro key; rfl
  · rw [get_cache_applyWrites_ne _ _ _ hws]; rfl
  · exact get_cache_age_set_self s k v t t'
  · exact roundTenths_nonneg _ (by linarith)

/-- Witness for C9 at a concrete store, key, value, times and write
batch. -/
theorem cache_roundtrip_witness :
    get_cache
        (applyWrites [("other", Value.vnat 7, 5)]
          (set_cache [] "k" (Value.vnat 1) 2)) "k" = some (Value.vnat 1) ∧
    get_cache ([] : Store) "k" = none ∧
    get_cache_age ([] : Store) "k" 9 = none ∧
    get_cache (applyWrites [("other", Value.vnat 7, 5)] ([] : Store)) "k" =
      none ∧
    get_cache_age (set_cache [] "k" (Value.vnat 1) 2) "k" 9 =
      some (roundTenths (9 - 2)) ∧
    0 ≤ roundTenths (9 - 2) := by
  have h := cache_roundtrip [] "k" (Value.vnat 1) 2 9
    [("other", Value.vnat 7, 5)]
    (by intro w hw; simp at hw; subst hw; decide) (by norm_num)
  exact ⟨h.1, h.2.1 "k", h.2.2.1 "k", h.2.2.2.1, h.2.2.2.2.1, h.2.2.2.2.2⟩

/-! ## Job-level failure handling -/

/-- The fetch outcomes a gated job treats as failed: a raised exception,
or a returned value that is falsy (`if data:` fails).  Per the adapter
contract, a falsy return from these adapters signals a failed fetch. -/
def failedFetch : Fetch → Bool
  | .exn  => true
  | .ok v => !truthy v

theorem gatedJob_failed (key : String) (interval : ℚ) (now last : Time)
    (f : Fetch) (s : Store) (hf : failedFetch f = true) :
    (gatedJob key interval now last f s).store = s ∧
    (gatedJob key interval now last f s).last = last ∧
    (gatedJob key interval now last f s).raised = false := by
  unfold gatedJob
  split
  · exact ⟨rfl, rfl, rfl⟩
  · cases f with
    | exn => exact ⟨rfl, rfl, rfl⟩
    | ok v =>
        simp only [failedFetch, Bool.not_eq_true'] at hf
        simp [hf]

/-- C1 counterexample.  `_job_live` writes *any* returned value: seed
`"live_scores"` with `V1 = vnat 1` and let the adapter return the falsy
empty list — which `scrape_live_scores` returns both for "zero live
matches" and when every one of its date fetches failed (each failure is
caught and skipped, `sofascore.py` lines 144–157) — and `V1` is
overwritten, contradicting "for every refresh job … a failed/falsy
result leaves the entry untouched". -/
theorem never_overwrite_cex :
    truthy (Value.vlist []) = false ∧
    get_cache (_job_live (.ok (.vlist [])) 7
        (set_cache [] "live_scores" (Value.vnat 1) 0)).store "live_scores" =
      some (Value.vlist []) ∧
    some (Value.vlist []) ≠ some (Value.vnat 1) := by
  refine ⟨rfl, ?_, ?_⟩
  · exact get_cache_set_self _ "live_scores" (Value.vlist []) 7
  · intro h
    exact Value.noConfusion (Option.some.inj h)

/-- C1 (amended).  A raised exception leaves every job's cache entry —
in particular any key `K` holding `V1` — untouched and never escapes
the job (`raised = false`); for the three gated jobs a falsy returned
result is likewise treated as a failed fetch and leaves the entry
untouched; `_job_live`, however, writes any returned value, falsy or
not, to `"live_scores"`. -/
theorem never_overwrite_on_failure (s : Store) (now last : Time)
    (f : Fetch) (hf : failedFetch f = true)
    (K : String) (v1 : Value) (hK : get_cache s K = some v1) :
    ((_job_live .exn now s).store = s ∧
      (_job_live .exn now s).raised = false ∧
      get_cache (_job_live .exn now s).store K = some v1) ∧
    ((_job_fd_leagues now last f s).store = s ∧
      (_job_fd_leagues now last f s).raised = false ∧
      get_cache (_job_fd_leagues now last f s).store K = some v1) ∧
    ((_job_indian_leagues now last f s).store = s ∧
      (_job_indian_leagues now last f s).raised = false ∧
      get_cache (_job_indian_leagues now last f s).store K = some v1) ∧
    ((_job_ss_leagues now last f s).store = s ∧
      (_job_ss_leagues now last f s).raised = false ∧
      get_cache (_job_ss_leagues now last f s).store K = some v1) ∧
    (∀ ms : Value,
      (_job_live (.ok ms) now s).store = set_cache s "live_scores" ms now) := by
  have hfd := gatedJob_failed "fd_leagues" FD_INTERVAL_S now last f s hf
  have hin := gatedJob_failed "indian_leagues" INDIAN_INTERVAL_S now last f s hf
  have hss := gatedJob_failed "sofascore_leagues" SS_LEAGUES_INTERVAL_S
    now last f s hf
  refine ⟨⟨rfl, rfl, hK⟩, ?_, ?_, ?_, fun ms => rfl⟩
  · exact ⟨hfd.1, hfd.2.2, by rw [_job_fd_leagues, hfd.1]; exact hK⟩
  · exact ⟨hin.1, hin.2.2, by rw [_job_indian_leagues, hin.1]; exact hK⟩
  · exact ⟨hss.1, hss.2.2, by rw [_job_ss_leagues, hss.1]; exact hK⟩

/-- Witness for C1: seed `"fd_leagues"` with `V1 = vnat 1`, run every
job with a raising adapter; the store still holds `V1` and nothing
escaped. -/
theorem never_overwrite_on_failure_witness :
    ((_job_live .exn 9 (set_cache [] "fd_leagues" (Value.vnat 1) 0)).store =
        set_cache [] "fd_leagues" (Value.vnat 1) 0 ∧
      (_job_live .exn 9 (set_cache [] "fd_leagues" (Value.vnat 1) 0)).raised =
        false ∧
      get_cache (_job_live .exn 9
          (set_cache [] "fd_leagues" (Value.vnat 1) 0)).store "fd_leagues" =
        some (Value.vnat 1)) ∧
    ((_job_fd_leagues 9 0 .exn
          (set_cache [] "fd_leagues" (Value.vnat 1) 0)).store =
        set_cache [] "fd_leagues" (Value.vnat 1) 0 ∧
      (_job_fd_leagues 9 0 .exn
          (set_cache [] "fd_leagues" (Value.vnat 1) 0)).raised = false ∧
      get_cache (_job_fd_leagues 9 0 .exn
          (set_cache [] "fd_leagues" (Value.vnat 1) 0)).store "fd_leagues" =
        some (Value.vnat 1)) ∧
    ((_job_indian_leagues 9 0 .exn
          (set_cache [] "fd_leagues" (Value.vnat 1) 0)).store =
        set_cache [] "fd_leagues" (Value.vnat 1) 0 ∧
      (_job_indian_leagues 9 0 .exn
          (set_cache [] "fd_leagues" (Value.vnat 1) 0)).raised = false ∧
      get_cache (_job_indian_leagues 9 0 .exn
          (set_cache [] "fd_leagues" (Value.vnat 1) 0)).store "fd_leagues" =
        some (Value.vnat 1)) ∧
    ((_job_ss_leagues 9 0 .exn
          (set_cache [] "fd_leagues" (Value.vnat 1) 0)).store =
        set_cache [] "fd_leagues" (Value.vnat 1) 0 ∧
      (_job_ss_leagues 9 0 .exn
          (set_cache [] "fd_leagues" (Value.vnat 1) 0)).raised = false ∧
      get_cache (_job_ss_leagues 9 0 .exn
          (set_cache [] "fd_leagues" (Value.vnat 1) 0)).store "fd_leagues" =
        some (Value.vnat 1)) ∧
    (_job_live (.ok (.vlist [])) 9
        (set_cache [] "fd_leagues" (Value.vnat 1) 0)).store =
      set_cache (set_cache [] "fd_leagues" (Value.vnat 1) 0)
        "live_scores" (.vlist []) 9 := by
  have h := never_overwrite_on_failure
    (set_cache [] "fd_leagues" (Value.vnat 1) 0) 9 0 .exn rfl
    "fd_leagues" (Value.vnat 1)
    (get_cache_set_self [] "fd_leagues" (Value.vnat 1) 0)
  exact ⟨h.1, h.2.1, h.2.2.1, h.2.2.2.1, h.2.2.2.2 (.vlist [])⟩

/-- C2 counterexample.  `_job_fd_leagues` is due (interval elapsed) and
its adapter returns the explicitly empty mapping `{}`; the claim says
the cache is updated to the empty value, but `if data:` treats `{}` as
falsy and the old value `vnat 1` is still there. -/
theorem valid_empty_cex :
    get_cache (_job_fd_leagues 10000 0 (.ok (.vdict []))
        (set_cache [] "fd_leagues" (Value.vnat 1) 0)).store "fd_leagues" =
      some (Value.vnat 1) ∧
    some (Value.vnat 1) ≠ some (Value.vdict []) ∧
    FD_INTERVAL_S ≤ (10000 : ℚ) - 0 := by
  refine ⟨?_, ?_, by norm_num [FD_INTERVAL_S]⟩
  · have h1 : ¬((10000 : ℚ) - 0 < FD_INTERVAL_S) := by norm_num [FD_INTERVAL_S]
    rw [_job_fd_leagues]
    unfold gatedJob
    rw [if_neg h1]
    exact get_cache_set_self [] "fd_leagues" (Value.vnat 1) 0
  · intro h
    exact Value.noConfusion (Option.some.inj h)

/-- C2 amended.  Only `_job_live` writes an explicitly-empty-but-valid
result: a fetched empty list is cached under `"live_scores"`.  The three
gated jobs treat an empty mapping as a failed fetch (`if data:`) and
leave the cache untouched even when they are due and their adapter was
actually invoked. -/
theorem valid_empty_amended (s : Store) (now last : Time)
    (hfd : FD_INTERVAL_S ≤ now - last)
    (hin : INDIAN_INTERVAL_S ≤ now - last)
    (hss : SS_LEAGUES_INTERVAL_S ≤ now - last) :
    get_cache (_job_live (.ok (.vlist [])) now s).store "live_scores" =
      some (Value.vlist []) ∧
    ((_job_fd_leagues now last (.ok (.vdict [])) s).store = s ∧
      (_job_fd_leagues now last (.ok (.vdict [])) s).adapterCalled = true) ∧
    ((_job_indian_leagues now last (.ok (.vdict [])) s).store = s ∧
      (_job_indian_leagues now last (.ok (.vdict [])) s).adapterCalled =
        true) ∧
    ((_job_ss_leagues now last (.ok (.vdict [])) s).store = s ∧
      (_job_ss_leagues now last (.ok (.vdict [])) s).adapterCalled =
        true) := by
  refine ⟨get_cache_set_self s "live_scores" (Value.vlist []) now,
    ⟨(gatedJob_failed "fd_leagues" FD_INTERVAL_S now last
        (.ok (.vdict [])) s rfl).1, ?_⟩,
    ⟨(gatedJob_failed "indian_leagues" INDIAN_INTERVAL_S now last
        (.ok (.vdict [])) s rfl).1, ?_⟩,
    ⟨(gatedJob_failed "sofascore_leagues" SS_LEAGUES_INTERVAL_S now last
        (.ok (.vdict [])) s rfl).1, ?_⟩⟩
  · rw [_job_fd_leagues]; unfold gatedJob
    rw [if_neg (not_lt.mpr hfd)]; rfl
  · rw [_job_indian_leagues]; unfold gatedJob
    rw [if_neg (not_lt.mpr hin)]; rfl
  · rw [_job_ss_leagues]; unfold gatedJob
    rw [if_neg (not_lt.mpr hss)]; rfl

/-- Witness for the amended C2 at a concrete store and clock. -/
theorem valid_empty_amended_witness :
    get_cache (_job_live (.ok (.vlist [])) 100000 ([] : Store)).store
        "live_scores" = some (Value.vlist []) ∧
    ((_job_fd_leagues 100000 0 (.ok (.vdict [])) ([] : Store)).store = [] ∧
      (_job_fd_leagues 100000 0 (.ok (.vdict []))
          ([] : Store)).adapterCalled = true) ∧
    ((_job_indian_leagues 100000 0 (.ok (.vdict [])) ([] : Store)).store =
        [] ∧
      (_job_indian_leagues 100000 0 (.ok (.vdict []))
          ([] : Store)).adapterCalled = true) ∧
    ((_job_ss_leagues 100000 0 (.ok (.vdict [])) ([] : Store)).store = [] ∧
      (_job_ss_leagues 100000 0 (.ok (.vdict []))
          ([] : Store)).adapterCalled = true) :=
  valid_empty_amended [] 100000 0 (by norm_num [FD_INTERVAL_S])
    (by norm_num [INDIAN_INTERVAL_S]) (by norm_num [SS_LEAGUES_INTERVAL_S])

/-- C4.  Time-of-day interval selection: the inter-cycle interval is the
short constant (3 minutes) exactly for IST clock hours in the active
range (`hour >= 17 or hour < 6`) and the long constant (7 minutes) for
every other hour; hour 18 and boundary hour 17 are short, hour 10 and
boundary hour 6 are long. -/
theorem time_of_day_interval :
    (∀ h : Nat,
      (_live_interval h = ACTIVE_INTERVAL_S ↔ (17 ≤ h ∨ h < 6)) ∧
      (_live_interval h = OFFPEAK_INTERVAL_S ↔ ¬(17 ≤ h ∨ h < 6))) ∧
    _live_interval 18 = ACTIVE_INTERVAL_S ∧
    _live_interval 10 = OFFPEAK_INTERVAL_S ∧
    _live_interval 17 = ACTIVE_INTERVAL_S ∧
    _live_interval 6 = OFFPEAK_INTERVAL_S ∧
    ACTIVE_INTERVAL_S = 3 * 60 ∧ OFFPEAK_INTERVAL_S = 7 * 60 := by
  have hne : ACTIVE_INTERVAL_S ≠ OFFPEAK_INTERVAL_S := by
    norm_num [ACTIVE_INTERVAL_S, OFFPEAK_INTERVAL_S]
  refine ⟨?_, rfl, rfl, rfl, rfl, rfl, rfl⟩
  intro h
  by_cases h17 : 17 ≤ h
  · simp [_live_interval, _is_active, h17, hne]
  · by_cases h6 : h < 6
    · simp [_live_interval, _is_active, h17, h6, hne]
    · simp [_live_interval, _is_active, h17, h6, hne, Ne.symm hne]

/-- C5 counterexample.  `_job_live` has no interval gate: two
invocations one second apart — far less than either live interval —
both invoke the adapter, so "for every refresh job the adapter call
happens only once in quick succession" fails. -/
theorem interval_gating_cex :
    (_job_live (.ok (.vlist [])) 0 ([] : Store)).adapterCalled = true ∧
    (_job_live (.ok (.vlist [])) 1
        (_job_live (.ok (.vlist [])) 0 ([] : Store)).store).adapterCalled =
      true ∧
    (1 : ℚ) - 0 < ACTIVE_INTERVAL_S ∧ (1 : ℚ) - 0 < OFFPEAK_INTERVAL_S := by
  exact ⟨rfl, rfl, by norm_num [ACTIVE_INTERVAL_S],
    by norm_num [OFFPEAK_INTERVAL_S]⟩

/-- C5 amended.  Interval gating holds for the three jobs that carry a
`last_…` stamp: when `now - last < interval` the job is a complete
no-op that does not invoke the adapter; after a successful run the
stamp moves to `now`, so an immediate re-run does not invoke the
adapter either, and a run after the interval elapsed does.  `_job_live`
is ungated and invokes its adapter on every call. -/
theorem interval_gating_amended :
    (∀ (s : Store) (now last : Time) (f : Fetch),
      now - last < FD_INTERVAL_S →
        _job_fd_leagues now last f s = ⟨s, last, false, false⟩) ∧
    (∀ (s : Store) (now last : Time) (f : Fetch),
      now - last < INDIAN_INTERVAL_S →
        _job_indian_leagues now last f s = ⟨s, last, false, false⟩) ∧
    (∀ (s : Store) (now last : Time) (f : Fetch),
      now - last < SS_LEAGUES_INTERVAL_S →
        _job_ss_leagues now last f s = ⟨s, last, false, false⟩) ∧
    (∀ (s : Store) (now last : Time) (f : Fetch),
      FD_INTERVAL_S ≤ now - last →
        (_job_fd_leagues now last f s).adapterCalled = true) ∧
    (∀ (s : Store) (now last : Time) (d : Value),
      truthy d = true → FD_INTERVAL_S ≤ now - last →
        (_job_fd_leagues now last (.ok d) s).last = now) ∧
    (∀ (s : Store) (now last t1 : Time) (d : Value) (f1 : Fetch),
      truthy d = true → FD_INTERVAL_S ≤ now - last →
      t1 - now < FD_INTERVAL_S →
        (_job_fd_leagues t1 (_job_fd_leagues now last (.ok d) s).last f1
          (_job_fd_leagues now last (.ok d) s).store).adapterCalled =
          false) ∧
    (∀ (s : Store) (now : Time) (f : Fetch),
      (_job_live f now s).adapterCalled = true) := by
  have hgate : ∀ (key : String) (interval : ℚ) (s : Store)
      (now last : Time) (f : Fetch), now - last < interval →
      gatedJob key interval now last f s = ⟨s, last, false, false⟩ := by
    intro key interval s now last f h
    unfold gatedJob
    rw [if_pos h]
  have hcall : ∀ (key : String) (interval : ℚ) (s : Store)
      (now last : Time) (f : Fetch), interval ≤ now - last →
      (gatedJob key interval now last f s).adapterCalled = true := by
    intro key interval s now last f h
    unfold gatedJob
    rw [if_neg (not_lt.mpr h)]
    cases f with
    | exn => rfl
    | ok d =>
        by_cases ht : truthy d
        · simp [ht]
        · simp [ht]
  have hstamp : ∀ (key : String) (interval : ℚ) (s : Store)
      (now last : Time) (d : Value), truthy d = true →
      interval ≤ now - last →
      (gatedJob key interval now last (.ok d) s).last = now := by
    intro key interval s now last d ht h
    unfold gatedJob
    rw [if_neg (not_lt.mpr h)]
    simp [ht]
  refine ⟨fun s now last f h => hgate _ _ s now last f h,
    fun s now last f h => hgate _ _ s now last f h,
    fun s now last f h => hgate _ _ s now last f h,
    fun s now last f h => hcall _ _ s now last f h,
    fun s now last d ht h => hstamp _ _ s now last d ht h,
    ?_, fun s now f => by cases f <;> rfl⟩
  intro s now last t1 d f1 ht h h1
  have hl : (_job_fd_leagues now last (.ok d) s).last = now :=
    hstamp "fd_leagues" FD_INTERVAL_S s now last d ht h
  rw [_job_fd_leagues, hl, hgate "fd_leagues" FD_INTERVAL_S _ t1 now f1 h1]

/-- Witness for the amended C5: the FD job gated out one second after a
successful run, and invoked once the interval elapsed. -/
theorem interval_gating_amended_witness :
    _job_fd_leagues 1 0 .exn ([] : Store) = ⟨[], 0, false, false⟩ ∧
    (_job_fd_leagues 2000 0 .exn ([] : Store)).adapterCalled = true ∧
    (_job_fd_leagues 2000 0 (.ok (Value.vnat 3)) ([] : Store)).last = 2000 ∧
    (_job_fd_leagues 2001
        (_job_fd_leagues 2000 0 (.ok (Value.vnat 3)) ([] : Store)).last .exn
        (_job_fd_leagues 2000 0 (.ok (Value.vnat 3))
          ([] : Store)).store).adapterCalled = false ∧
    (_job_live .exn 0 ([] : Store)).adapterCalled = true :=
  ⟨interval_gating_amended.1 [] 1 0 .exn (by norm_num [FD_INTERVAL_S]),
    interval_gating_amended.2.2.2.1 [] 2000 0 .exn
      (by norm_num [FD_INTERVAL_S]),
    interval_gating_amended.2.2.2.2.1 [] 2000 0 (Value.vnat 3) rfl
      (by norm_num [FD_INTERVAL_S]),
    interval_gating_amended.2.2.2.2.2.1 [] 2000 0 2001 (Value.vnat 3) .exn
      rfl (by norm_num [FD_INTERVAL_S]) (by norm_num [FD_INTERVAL_S]),
    interval_gating_amended.2.2.2.2.2.2 [] 0 .exn⟩

/-- C3.  At-most-one-cycle: a `_run_cycle` call that finds the scrape
lock held returns immediately with no job executed and nothing queued
(the state is left exactly as it was); and any `_run_cycle` call either
skips or leaves the lock released, so cycles never overlap. -/
theorem at_most_one_cycle {σ : Type} (jobs : List (σ → JobStep σ))
    (cs : CycleState σ) (h : cs.lockHeld = true) :
    _run_cycle jobs cs = ⟨cs, .skipped, 0⟩ ∧
    (∀ cs' : CycleState σ,
      ((_run_cycle jobs cs').state).lockHeld = false ∨
        _run_cycle jobs cs' = ⟨cs', .skipped, 0⟩) := by
  constructor
  · unfold _run_cycle
    rw [if_pos h]
  · intro cs'
    by_cases h' : cs'.lockHeld = true
    · right
      unfold _run_cycle
      rw [if_pos h']
    · left
      unfold _run_cycle
      rw [if_neg h']

/-- Witness for C3: a held lock makes the cycle a recorded skip with
zero jobs run. -/
theorem at_most_one_cycle_witness :
    _run_cycle [fun n : Nat => JobStep.ok (n + 1)] ⟨true, 0⟩ =
      ⟨⟨true, 0⟩, .skipped, 0⟩ :=
  (at_most_one_cycle [fun n : Nat => JobStep.ok (n + 1)] ⟨true, 0⟩ rfl).1

/-! ## Cycle behaviour under a raising job -/

/-- A job whose body raises immediately (state untouched). -/
def throwJob : Nat → JobStep Nat := fun n => .exn n

/-- A job that completes, incrementing the state counter. -/
def countJob : Nat → JobStep Nat := fun n => .ok (n + 1)

/-- C6 counterexample.  With a first job that throws and a second
counting job, the cycle ends `raised` (the exception escapes
`_run_cycle` — there is no per-job defensive wrapper in the
coordinator) after running only 1 job: the remaining job did not run in
that cycle (the counter is still 0), contradicting "the cycle continues
executing the remaining jobs". -/
theorem coordinator_wrapper_cex :
    _run_cycle [throwJob, countJob] ⟨false, 0⟩ = ⟨⟨false, 0⟩, .raised, 1⟩ ∧
    CycleResult.raised ≠ CycleResult.completed := by
  exact ⟨rfl, by decide⟩

theorem runJobs_ok_prefix {σ : Type} (pre rest : List (σ → JobStep σ))
    (s : σ) (hpre : ∀ j ∈ pre, ∀ t, ∃ t', j t = .ok t') :
    ∃ s', runJobs (pre ++ rest) s =
      ((runJobs rest s').1, (runJobs rest s').2.1,
        (runJobs rest s').2.2 + pre.length) := by
  induction pre generalizing s with
  | nil =>
      refine ⟨s, ?_⟩
      simp [runJobs]
  | cons j pre' ih =>
      obtain ⟨t', hj⟩ := hpre j (List.mem_cons_self j pre') s
      obtain ⟨s', hs'⟩ :=
        ih t' (fun j' hj' t => hpre j' (List.mem_cons_of_mem j hj') t)
      refine ⟨s', ?_⟩
      simp [List.cons_append, runJobs, hj, hs', List.length_cons,
        Nat.add_assoc]

/-- C6 amended.  If a job's own logic throws during a cycle, the
exception is *not* caught by the coordinator: `_run_cycle` stops after
that job (the remaining jobs of that cycle are skipped, `jobsRun =
pre.length + 1`), the mutex is still released (`async with`), and the
escaped exception is absorbed one level up by the driver loop's
`try/except`, which logs it and carries the resulting state into the
next iteration. -/
theorem coordinator_exn_amended {σ : Type} (pre post : List (σ → JobStep σ))
    (j : σ → JobStep σ) (s : σ)
    (hpre : ∀ jb ∈ pre, ∀ t, ∃ t', jb t = .ok t')
    (hj : ∀ t, ∃ t', j t = .exn t') :
    (_run_cycle (pre ++ j :: post) ⟨false, s⟩).result = .raised ∧
    ((_run_cycle (pre ++ j :: post) ⟨false, s⟩).state).lockHeld = false ∧
    (_run_cycle (pre ++ j :: post) ⟨false, s⟩).jobsRun = pre.length + 1 ∧
    schedulerLoopStep (pre ++ j :: post) ⟨false, s⟩ =
      (_run_cycle (pre ++ j :: post) ⟨false, s⟩).state := by
  obtain ⟨s', hs'⟩ := runJobs_ok_prefix pre (j :: post) s hpre
  obtain ⟨t', ht'⟩ := hj s'
  have hrest : runJobs (j :: post) s' = (t', true, 1) := by
    simp [runJobs, ht']
  rw [hrest] at hs'
  have hall : runJobs (pre ++ j :: post) s = (t', true, 1 + pre.length) := by
    simpa using hs'
  have hcycle : _run_cycle (pre ++ j :: post) ⟨false, s⟩ =
      ⟨⟨false, t'⟩, .raised, 1 + pre.length⟩ := by
    unfold _run_cycle
    rw [if_neg (by simp), hall]
    rfl
  refine ⟨?_, ?_, ?_, rfl⟩
  · rw [hcycle]
  · rw [hcycle]
  · rw [hcycle]
    show 1 + pre.length = pre.length + 1
    omega

/-- Witness for the amended C6: one completing job, then a throwing
job, then one more job; the cycle raises after 2 jobs with the lock
released, and the driver step carries on. -/
theorem coordinator_exn_amended_witness :
    (_run_cycle ([countJob] ++ throwJob :: [countJob])
        ⟨false, 0⟩).result = .raised ∧
    ((_run_cycle ([countJob] ++ throwJob :: [countJob])
        ⟨false, 0⟩).state).lockHeld = false ∧
    (_run_cycle ([countJob] ++ throwJob :: [countJob])
        ⟨false, 0⟩).jobsRun = 2 ∧
    schedulerLoopStep ([countJob] ++ throwJob :: [countJob]) ⟨false, 0⟩ =
      (_run_cycle ([countJob] ++ throwJob :: [countJob]) ⟨false, 0⟩).state :=
  coordinator_exn_amended [countJob] [countJob] throwJob 0
    (by
      intro jb hjb t
      simp at hjb
      subst hjb
      exact ⟨t + 1, rfl⟩)
    (fun t => ⟨t, rfl⟩)

/-! ## Driver singleton -/

theorem startN_eq : ∀ n : Nat, 1 ≤ n → startN n = ⟨true, 1⟩ := by
  intro n
  induction n with
  | zero => intro hn; omega
  | succ m ih =>
      intro _
      by_cases hm : 1 ≤ m
      · show (run_scheduler_start (startN m)).1 = _
        rw [ih hm]
        rfl
      · have hm0 : m = 0 := by omega
        subst hm0
        rfl

/-- C7.  Scheduler singleton: a `run_scheduler` call that finds
`_running` set returns immediately without entering the warm-up/loop
body (`False`) and leaves the state unchanged; the flag is monotone
(no transition ever resets it); and any positive number of successive
start calls from the stopped state enters the loop body exactly once. -/
theorem scheduler_singleton (d : DriverState) (hd : d.running = true)
    (n : Nat) (hn : 1 ≤ n) :
    run_scheduler_start d = (d, false) ∧
    (∀ d' : DriverState, d'.running = true →
      ((run_scheduler_start d').1).running = true) ∧
    startN n = ⟨true, 1⟩ := by
  refine ⟨?_, ?_, startN_eq n hn⟩
  · unfold run_scheduler_start
    rw [if_pos hd]
  · intro d' hd'
    unfold run_scheduler_start
    rw [if_pos hd']
    exact hd'

/-- Witness for C7: the second of two start calls is a no-op and the
loop body ran exactly once. -/
theorem scheduler_singleton_witness :
    run_scheduler_start ⟨true, 1⟩ = (⟨true, 1⟩, false) ∧
    startN 2 = ⟨true, 1⟩ :=
  ⟨(scheduler_singleton ⟨true, 1⟩ rfl 2 (by omega)).1,
    (scheduler_singleton ⟨true, 1⟩ rfl 2 (by omega)).2.2⟩

/-! ## Partial batch results -/

/-- Per-slug outcomes for the C8 scenario: the Premier League's three
sub-fetches complete — with one fixture but an *empty* standings table
and scorers list (those sub-fetches failed gracefully: `_get` returned
`None`, so the sub-scrapers returned `[]`) — while every other
configured league raises. -/
def cexLeagueFetch : String → LeagueFetch := fun slug =>
  if slug = "premier-league" then
    ⟨.ok (.vlist [.vstr "m1"]) (.vlist []), .ok (.vlist []), .ok (.vlist [])⟩
  else ⟨.exn, .exn, .exn⟩

/-- C8 counterexample.  With two configured leagues of which one
raises, `scrape_all_fd_leagues` returns a mapping covering only the
surviving league — whose entry moreover carries real fixtures next to
an empty, gracefully-failed standings component — and `_job_fd_leagues`
(due, empty cache before) writes that partial mapping: the attempt is
not treated as failed and a partially-enriched value is cached. -/
theorem complete_snapshots_cex :
    scrape_all_fd_leagues ["premier-league", "la-liga"] cexLeagueFetch =
      .vdict [("premier-league", .vdict
        [("upcoming", .vlist [.vstr "m1"]), ("recent", .vlist []),
          ("standings", .vlist []), ("scorers", .vlist [])])] ∧
    (cexLeagueFetch "la-liga").raises = true ∧
    get_cache (_job_fd_leagues 10000 0
        (.ok (scrape_all_fd_leagues ["premier-league", "la-liga"]
          cexLeagueFetch)) ([] : Store)).store "fd_leagues" =
      some (.vdict [("premier-league", .vdict
        [("upcoming", .vlist [.vstr "m1"]), ("recent", .vlist []),
          ("standings", .vlist []), ("scorers", .vlist [])])]) := by
  refine ⟨rfl, rfl, ?_⟩
  have h1 : ¬((10000 : ℚ) - 0 < FD_INTERVAL_S) := by norm_num [FD_INTERVAL_S]
  rw [_job_fd_leagues]
  unfold gatedJob
  rw [if_neg h1]
  exact get_cache_set_self [] "fd_leagues" _ 10000

theorem leagueEntry_eq_none_iff (lf : LeagueFetch) :
    leagueEntry lf = none ↔ lf.raises = true := by
  unfold leagueEntry LeagueFetch.raises
  rcases hM : lf.matchesStep with _ | ⟨u, r⟩ <;>
    rcases hS : lf.standingsStep with _ | st <;>
      rcases hC : lf.scorersStep with _ | sc <;> simp

theorem fdResultEntries_keys (slugs : List String)
    (f : String → LeagueFetch) :
    (fdResultEntries slugs f).map Prod.fst =
      slugs.filter (fun slug => !(f slug).raises) := by
  induction slugs with
  | nil => rfl
  | cons slug rest ih =>
      cases hE : leagueEntry (f slug) with
      | none =>
          have hr : (f slug).raises = true := (leagueEntry_eq_none_iff _).mp hE
          simpa [fdResultEntries, List.filterMap_cons, hE, hr,
            List.filter_cons] using ih
      | some v =>
          have hrf : (f slug).raises = false := by
            cases hb : (f slug).raises with
            | false => rfl
            | true =>
                rw [(leagueEntry_eq_none_iff _).mpr hb] at hE
                exact Option.noConfusion hE
          simpa [fdResultEntries, List.filterMap_cons, hE, hrf,
            List.filter_cons] using ih

theorem leagueEntry_mem_fdResultEntries (slugs : List String)
    (f : String → LeagueFetch) :
    ∀ slug ∈ slugs, ∀ v : Value, leagueEntry (f slug) = some v →
      (slug, v) ∈ fdResultEntries slugs f := by
  induction slugs with
  | nil =>
      intro slug h
      exact absurd h (List.not_mem_nil slug)
  | cons a rest ih =>
      intro slug hmem v hv
      rcases List.mem_cons.mp hmem with heq | htail
      · subst heq
        simp [fdResultEntries, List.filterMap_cons, hv]
      · cases hE : leagueEntry (f a) with
        | none =>
            simpa [fdResultEntries, List.filterMap_cons, hE] using
              ih slug htail v hv
        | some b =>
            have := ih slug htail v hv
            simp only [fdResultEntries, List.filterMap_cons, hE,
              Option.map_some']
            exact List.mem_cons_of_mem _ this

theorem gatedJob_success (key : String) (interval : ℚ) (now last : Time)
    (d : Value) (s : Store) (ht : truthy d = true)
    (hdue : interval ≤ now - last) :
    gatedJob key interval now last (.ok d) s =
      ⟨set_cache s key d now, now, true, false⟩ := by
  unfold gatedJob
  rw [if_neg (not_lt.mpr hdue)]
  simp [ht]

/-- C8 amended.  A league is dropped from the batch — its key absent
from the written mapping — exactly when one of its three sub-fetch
awaits raises; leagues whose sub-fetches all completed keep exactly the
assembled entry, *including* empty components from sub-fetches that
failed gracefully (`_get` → `None` → `[]`), so partially-enriched
per-league values can be written.  The job writes the resulting mapping
whenever at least one league survived; only when every league is
dropped (empty mapping) is nothing written. -/
theorem complete_snapshots_amended (slugs : List String)
    (f : String → LeagueFetch) (now last : Time) (s : Store)
    (hdue : FD_INTERVAL_S ≤ now - last) :
    (fdResultEntries slugs f).map Prod.fst =
      slugs.filter (fun slug => !(f slug).raises) ∧
    (∀ slug ∈ slugs, ∀ v : Value, leagueEntry (f slug) = some v →
      (slug, v) ∈ fdResultEntries slugs f) ∧
    ((∀ slug ∈ slugs, (f slug).raises = true) →
      (_job_fd_leagues now last (.ok (scrape_all_fd_leagues slugs f))
        s).store = s) ∧
    ((∃ slug ∈ slugs, (f slug).raises = false) →
      get_cache (_job_fd_leagues now last
          (.ok (scrape_all_fd_leagues slugs f)) s).store "fd_leagues" =
        some (scrape_all_fd_leagues slugs f)) := by
  refine ⟨fdResultEntries_keys slugs f,
    leagueEntry_mem_fdResultEntries slugs f, ?_, ?_⟩
  · intro hall
    have hnil : fdResultEntries slugs f = [] := by
      have hkeys := fdResultEntries_keys slugs f
      rw [List.filter_eq_nil_iff.mpr (by
        intro slug hslug
        rw [hall slug hslug]
        simp)] at hkeys
      exact List.map_eq_nil_iff.mp hkeys
    have hfalse : failedFetch (.ok (scrape_all_fd_leagues slugs f)) = true := by
      simp [failedFetch, scrape_all_fd_leagues, hnil, truthy]
    exact (gatedJob_failed "fd_leagues" FD_INTERVAL_S now last
      (.ok (scrape_all_fd_leagues slugs f)) s hfalse).1
  · rintro ⟨slug, hslug, hok⟩
    have hmem : slug ∈ slugs.filter (fun slug => !(f slug).raises) :=
      List.mem_filter.mpr ⟨hslug, by simp [hok]⟩
    have htrue : truthy (scrape_all_fd_leagues slugs f) = true := by
      cases hl : fdResultEntries slugs f with
      | nil =>
          rw [← fdResultEntries_keys slugs f, hl] at hmem
          simp at hmem
      | cons a l => simp [scrape_all_fd_leagues, truthy, hl]
    rw [_job_fd_leagues,
      gatedJob_success "fd_leagues" FD_INTERVAL_S now last _ s htrue hdue]
    exact get_cache_set_self s "fd_leagues" _ now

/-- Witness for the amended C8: with the mixed fetch the partial
mapping is written and the surviving league's entry — fixtures present,
standings gracefully empty — is in it; with an all-raising fetch
nothing is written. -/
theorem complete_snapshots_amended_witness :
    get_cache (_job_fd_leagues 10000 0
        (.ok (scrape_all_fd_leagues ["premier-league", "la-liga"]
          cexLeagueFetch)) ([] : Store)).store "fd_leagues" =
      some (scrape_all_fd_leagues ["premier-league", "la-liga"]
        cexLeagueFetch) ∧
    ("premier-league", Value.vdict
        [("upcoming", .vlist [.vstr "m1"]), ("recent", .vlist []),
          ("standings", .vlist []), ("scorers", .vlist [])]) ∈
      fdResultEntries ["premier-league", "la-liga"] cexLeagueFetch ∧
    (_job_fd_leagues 10000 0
        (.ok (scrape_all_fd_leagues ["premier-league", "la-liga"]
          (fun _ => ⟨.exn, .exn, .exn⟩))) ([] : Store)).store = [] :=
  ⟨(complete_snapshots_amended ["premier-league", "la-liga"] cexLeagueFetch
      10000 0 [] (by norm_num [FD_INTERVAL_S])).2.2.2
    ⟨"premier-league", by simp, rfl⟩,
    (complete_snapshots_amended ["premier-league", "la-liga"] cexLeagueFetch
      10000 0 [] (by norm_num [FD_INTERVAL_S])).2.1
      "premier-league" (by simp) _ rfl,
    (complete_snapshots_amended ["premier-league", "la-liga"]
      (fun _ => ⟨.exn, .exn, .exn⟩) 10000 0 []
      (by norm_num [FD_INTERVAL_S])).2.2.1 (fun _ _ => rfl)⟩

/-! ## The dead `"tsdb_leagues"` key -/

theorem _job_live_store_cases (f : Fetch) (now : Time) (s : Store) :
    (_job_live f now s).store = s ∨
    ∃ v, (_job_live f now s).store = set_cache s "live_scores" v now := by
  cases f with
  | ok ms => exact .inr ⟨ms, rfl⟩
  | exn => exact .inl rfl

theorem gatedJob_store_cases (key : String) (interval : ℚ)
    (now last : Time) (f : Fetch) (s : Store) :
    (gatedJob key interval now last f s).store = s ∨
    ∃ v, (gatedJob key interval now last f s).store = set_cache s key v now := by
  unfold gatedJob
  split
  · exact .inl rfl
  · cases f with
    | exn => exact .inl rfl
    | ok d =>
        by_cases ht : truthy d
        · exact .inr ⟨d, by simp [ht]⟩
        · exact .inl (by simp [ht])

theorem reachable_tsdb_find_none {s : Store} (hs : SchedulerReachable s) :
    s.find? (fun p => p.1 = "tsdb_leagues") = none := by
  induction hs with
  | init => rfl
  | live f now hs ih =>
      rcases _job_live_store_cases f now _ with h | ⟨v, h⟩
      · rw [h]; exact ih
      · rw [h, set_cache, find?_storeSet_ne _ _ _ _ (by decide)]; exact ih
  | fd now last f hs ih =>
      rcases gatedJob_store_cases "fd_leagues" FD_INTERVAL_S now last f _
        with h | ⟨v, h⟩
      · rw [_job_fd_leagues, h]; exact ih
      · rw [_job_fd_leagues, h, set_cache,
          find?_storeSet_ne _ _ _ _ (by decide)]
        exact ih
  | indian now last f hs ih =>
      rcases gatedJob_store_cases "indian_leagues" INDIAN_INTERVAL_S
        now last f _ with h | ⟨v, h⟩
      · rw [_job_indian_leagues, h]; exact ih
      · rw [_job_indian_leagues, h, set_cache,
          find?_storeSet_ne _ _ _ _ (by decide)]
        exact ih
  | ss now last f hs ih =>
      rcases gatedJob_store_cases "sofascore_leagues" SS_LEAGUES_INTERVAL_S
        now last f _ with h | ⟨v, h⟩
      · rw [_job_ss_leagues, h]; exact ih
      · rw [_job_ss_leagues, h, set_cache,
          find?_storeSet_ne _ _ _ _ (by decide)]
        exact ih

theorem summaryHasKey_of_find_none (s : Store) (k : String) (now : Time)
    (h : s.find? (fun p => p.1 = k) = none) :
    summaryHasKey (cache_summary s now) k = false := by
  induction s with
  | nil => rfl
  | cons p rest ih =>
      by_cases hp : p.1 = k
      · rw [List.find?_cons_of_pos _ (by simp [hp])] at h
        exact absurd h (by simp)
      · rw [List.find?_cons_of_neg _ (by simp [hp])] at h
        simp only [cache_summary, List.map_cons, summaryHasKey, List.any_cons]
        rw [show (p.1 == k) = false from by simp [hp]]
        exact ih h

/-- C10.  The `"tsdb_leagues"` cache key is dead: the scheduler jobs —
the only `set_cache` callers — write `"live_scores"`, `"fd_leagues"`,
`"indian_leagues"` and `"sofascore_leagues"`, never `"tsdb_leagues"`;
so in every store reachable through scheduler writes alone,
`get_cache("tsdb_leagues")` is `None`, `/health`'s `indian_ready` and
thesportsdb `ready` fields are `False` with no leagues cached, and the
TheSportsDB branch contributes nothing to `/scores/upcoming` and
`/scores/recent`. -/
theorem dead_tsdb_key (s : Store) (hs : SchedulerReachable s) (now : Time)
    (stillUpcoming : Value → Bool) :
    get_cache s "tsdb_leagues" = none ∧
    health_indian_ready s now = false ∧
    health_tsdb_ready s now = false ∧
    health_tsdb_data s = [] ∧
    _all_upcoming stillUpcoming s = _all_upcoming_fd_only stillUpcoming s ∧
    _all_recent s = _all_recent_fd_only s := by
  have hfind := reachable_tsdb_find_none hs
  have hget : get_cache s "tsdb_leagues" = none := by
    unfold get_cache
    rw [hfind]
  refine ⟨hget, summaryHasKey_of_find_none _ _ _ hfind,
    summaryHasKey_of_find_none _ _ _ hfind, ?_, ?_, ?_⟩
  · simp [health_tsdb_data, hget, orEmptyDict]
  · simp [_all_upcoming, _all_upcoming_fd_only, hget, orEmptyDict]
  · simp [_all_recent, _all_recent_fd_only, hget, orEmptyDict]

/-- Witness for C10 at a concrete reachable store (one live-scores
write). -/
theorem dead_tsdb_key_witness :
    get_cache (_job_live (.ok (.vlist [])) 0 []).store "tsdb_leagues" =
      none ∧
    health_indian_ready (_job_live (.ok (.vlist [])) 0 []).store 5 = false ∧
    health_tsdb_ready (_job_live (.ok (.vlist [])) 0 []).store 5 = false ∧
    health_tsdb_data (_job_live (.ok (.vlist [])) 0 []).store = [] ∧
    _all_upcoming (fun _ => true) (_job_live (.ok (.vlist [])) 0 []).store =
      _all_upcoming_fd_only (fun _ => true)
        (_job_live (.ok (.vlist [])) 0 []).store ∧
    _all_recent (_job_live (.ok (.vlist [])) 0 []).store =
      _all_recent_fd_only (_job_live (.ok (.vlist [])) 0 []).store :=
  dead_tsdb_key (_job_live (.ok (.vlist [])) 0 []).store
    (SchedulerReachable.live (.ok (.vlist [])) 0 SchedulerReachable.init)
    5 (fun _ => true)

end FootballAPI
